import Mathlib

/-!
# Verification of `ste::Timer` (src/include/timer.hpp)

Shallow embedding of the single-header timer class. The C++ class holds four
fields (`_stopped`, `_is_single_shot`, `_ms_delay`, `_function`); `start`
spawns a detached background thread whose lambda is chosen — once, at spawn
time — by the value of `_is_single_shot`. The lambda captures `this`, so the
background loop reads and writes the very same fields the caller mutates.

We model:
* the `Timer` object as a record (`Timer`); the callback is identified by a
  `Nat` tag, since only its identity is observable in invocation events;
* each spawned lambda as a small-step machine over program counters (`Pc`),
  one atomic step per C++ statement (`loopStep`); the sleep is one step that
  emits an `Ev.sleep` event, an invocation emits `Ev.invoke f` where `f` is
  the callback tag read at that step;
* caller-side mutations (`stop()`, writing through `is_single_shot()`,
  writing through `function()`) as `CallerAct`, applied between loop steps;
* an execution as a fold `run` over an arbitrary interleaving (`List Act`)
  of background-thread steps and caller actions, returning the final
  configuration and the ordered event trace.
-/

/-- The fields of `ste::Timer<Function>` (timer.hpp, private section).
The callback `_function` is represented by a numeric tag. -/
structure Timer where
  _stopped : Bool
  _is_single_shot : Bool
  _ms_delay : Nat
  _function : Nat
deriving DecidableEq, Repr

/-- The constructor `Timer(function, _delay, single_shot)`:
initializes `_stopped` to `true` and copies the three arguments. -/
def Timer.construct (function : Nat) (_delay : Nat) (single_shot : Bool) : Timer :=
  { _stopped := true
    _is_single_shot := single_shot
    _ms_delay := _delay
    _function := function }

/-- The constructor with its defaulted last argument: `single_shot = true`. -/
def Timer.constructDefault (function : Nat) (_delay : Nat) : Timer :=
  Timer.construct function _delay true

/-- Accessor `stopped()`: returns `_stopped`. -/
def Timer.stopped (s : Timer) : Bool := s._stopped

/-- Accessor `running()`: returns `!stopped()`. -/
def Timer.running (s : Timer) : Bool := !s.stopped

/-- Accessor `is_single_shot() const`: returns `_is_single_shot`. -/
def Timer.is_single_shot (s : Timer) : Bool := s._is_single_shot

/-- Accessor `function() const`: returns `_function` (its tag). -/
def Timer.function (s : Timer) : Nat := s._function

/-- `stop()`: unconditionally sets `_stopped = true` (and returns `*this`,
which in this state-passing embedding is the returned record). -/
def Timer.stop (s : Timer) : Timer := { s with _stopped := true }

/-- Program counters of the two spawned lambdas, one per C++ statement.
The single-shot lambda starts at `check1`; the repeating lambda starts at
`modeCheck` (the `while(!_is_single_shot)` condition). -/
inductive Pc where
  | modeCheck  -- evaluate `while(!_is_single_shot)` (repeating lambda only)
  | check1     -- `if(_stopped){return;}` before the sleep
  | sleeping   -- `std::this_thread::sleep_for(_ms_delay)` in progress
  | check2     -- `if(_stopped){return;}` after the sleep
  | invoke     -- `_function();`
  | setStop    -- `_stopped = true;`
  | exited     -- thread returned
deriving DecidableEq, Repr

/-- A spawned background thread: which lambda was spawned (`kind_single`,
fixed at spawn time by the branch in `on_run`), its program counter, and the
shared `Timer` fields it captured via `this`. -/
structure Config where
  kind_single : Bool
  pc : Pc
  st : Timer
deriving DecidableEq, Repr

/-- `on_run()`: chooses the lambda by reading `_is_single_shot` at spawn
time and starts the thread at that lambda's first statement. -/
def Timer.on_run (s : Timer) : Config :=
  if s._is_single_shot then
    { kind_single := true, pc := Pc.check1, st := s }
  else
    { kind_single := false, pc := Pc.modeCheck, st := s }

/-- `start()`: if `_stopped`, set `_stopped = false` and spawn the thread
(`on_run`); otherwise do nothing. The `Option Config` is the spawned
thread: `none` means no thread was spawned by this call. -/
def Timer.start (s : Timer) : Timer × Option Config :=
  if s._stopped then
    let s' := { s with _stopped := false }
    (s', some s'.on_run)
  else
    (s, none)

/-- Observable events of the background thread: a full sleep of `_ms_delay`
completed, or an invocation of the callback whose tag is `f`. -/
inductive Ev where
  | sleep
  | invoke (f : Nat)
deriving DecidableEq, Repr

/-- Caller-side mutations possible while the thread runs: `stop()`, a write
through the mutable accessor `is_single_shot()`, a write through the
mutable accessor `function()`. -/
inductive CallerAct where
  | stop
  | setSingleShot (b : Bool)
  | setFunction (f : Nat)
deriving DecidableEq, Repr

/-- Effect of a caller action on the shared fields. -/
def applyCaller (a : CallerAct) (s : Timer) : Timer :=
  match a with
  | CallerAct.stop => s.stop
  | CallerAct.setSingleShot b => { s with _is_single_shot := b }
  | CallerAct.setFunction f => { s with _function := f }

/-- One interleaving slot: the background thread executes one statement
(`tick`), or the caller's thread performs one mutation (`call a`). -/
inductive Act where
  | tick
  | call (a : CallerAct)
deriving DecidableEq, Repr

/-- One atomic statement of the spawned lambda, returning the next
configuration and the event it emits, if any. Transcribed from the two
lambda bodies in `on_run`:
single-shot: `if(_stopped)return; sleep; if(_stopped)return; _function();
_stopped = true; return;`;
repeating: `while(!_is_single_shot){ if(_stopped)return; sleep;
if(_stopped)return; _function(); } _stopped = true; return;`. -/
def loopStep (c : Config) : Config × Option Ev :=
  match c.pc with
  | Pc.modeCheck =>
      if c.st._is_single_shot then ({ c with pc := Pc.setStop }, none)
      else ({ c with pc := Pc.check1 }, none)
  | Pc.check1 =>
      if c.st._stopped then ({ c with pc := Pc.exited }, none)
      else ({ c with pc := Pc.sleeping }, none)
  | Pc.sleeping =>
      ({ c with pc := Pc.check2 }, some Ev.sleep)
  | Pc.check2 =>
      if c.st._stopped then ({ c with pc := Pc.exited }, none)
      else ({ c with pc := Pc.invoke }, none)
  | Pc.invoke =>
      ({ c with pc := if c.kind_single then Pc.setStop else Pc.modeCheck },
       some (Ev.invoke c.st._function))
  | Pc.setStop =>
      ({ c with st := { c.st with _stopped := true }, pc := Pc.exited }, none)
  | Pc.exited => (c, none)

/-- Run an interleaving: fold the action list over the configuration,
collecting the events the background thread emits, in order. -/
def run (c : Config) : List Act → Config × List Ev
  | [] => (c, [])
  | Act.tick :: rest =>
      let s := loopStep c
      let r := run s.1 rest
      (r.1, s.2.toList ++ r.2)
  | Act.call a :: rest =>
      run { c with st := applyCaller a c.st } rest

/-- Number of callback invocations recorded in an event trace. -/
def countInvokes (evs : List Ev) : Nat :=
  (evs.filter fun e => match e with | Ev.invoke _ => true | _ => false).length

/-- Number of background-thread steps in an interleaving. -/
def numTicks (acts : List Act) : Nat :=
  (acts.filter fun a => match a with | Act.tick => true | _ => false).length

/-! ## Basic run lemmas -/

theorem run_append (l1 l2 : List Act) : ∀ c : Config,
    run c (l1 ++ l2) =
      ((run (run c l1).1 l2).1, (run c l1).2 ++ (run (run c l1).1 l2).2) := by
  induction l1 with
  | nil => intro c; simp [run]
  | cons a rest ih =>
    intro c
    cases a with
    | tick => simp [run, ih]
    | call a => simp [run, ih]

theorem loopStep_kind (c : Config) : (loopStep c).1.kind_single = c.kind_single := by
  unfold loopStep
  cases c.pc <;> simp <;> split <;> simp

theorem loopStep_mode (c : Config) :
    (loopStep c).1.st._is_single_shot = c.st._is_single_shot := by
  unfold loopStep
  cases c.pc <;> simp <;> split <;> simp

theorem loopStep_function (c : Config) :
    (loopStep c).1.st._function = c.st._function := by
  unfold loopStep
  cases c.pc <;> simp <;> split <;> simp

theorem run_kind (acts : List Act) : ∀ c : Config,
    (run c acts).1.kind_single = c.kind_single := by
  induction acts with
  | nil => intro c; simp [run]
  | cons a rest ih =>
    intro c
    cases a with
    | tick => simp [run]; rw [ih, loopStep_kind]
    | call a => simp [run]; rw [ih]

/-- Once the background thread has returned, nothing more happens on it:
its program counter stays `exited` and it emits no further event. -/
theorem run_exited (acts : List Act) : ∀ c : Config, c.pc = Pc.exited →
    (run c acts).1.pc = Pc.exited ∧ (run c acts).2 = [] := by
  induction acts with
  | nil => intro c h; simp [run, h]
  | cons a rest ih =>
    intro c h
    cases a with
    | tick =>
      have hs : loopStep c = (c, none) := by unfold loopStep; rw [h]
      simp [run, hs]
      exact ih c h
    | call a => simp [run]; exact ih _ h

/-- With no caller interference, an exited thread leaves the configuration
literally unchanged. -/
theorem run_exited_ticks (n : Nat) : ∀ c : Config, c.pc = Pc.exited →
    run c (List.replicate n Act.tick) = (c, []) := by
  induction n with
  | zero => intro c _; simp [run]
  | succ n ih =>
    intro c h
    have hs : loopStep c = (c, none) := by unfold loopStep; rw [h]
    simp [List.replicate_succ, run, hs]
    exact ih c h

/-- No caller action clears `_stopped`: `stop()` sets it, the two mutable
accessors touch other fields. -/
theorem applyCaller_stopped (a : CallerAct) (s : Timer) (h : s._stopped = true) :
    (applyCaller a s)._stopped = true := by
  cases a <;> simp [applyCaller, Timer.stop, h]

/-- The loop body never clears `_stopped` either: the only write is
`_stopped = true`. -/
theorem loopStep_stopped (c : Config) (h : c.st._stopped = true) :
    (loopStep c).1.st._stopped = true := by
  unfold loopStep
  cases c.pc <;> simp [h] <;> split <;> simp [h]

/-- Once `_stopped` is true it stays true for the rest of the run (there is
no `start` among the modeled caller actions). -/
theorem run_stopped_persist (acts : List Act) : ∀ c : Config,
    c.st._stopped = true → (run c acts).1.st._stopped = true := by
  induction acts with
  | nil => intro c h; simpa [run] using h
  | cons a rest ih =>
    intro c h
    cases a with
    | tick => simp [run]; exact ih _ (loopStep_stopped c h)
    | call a => simp [run]; exact ih _ (applyCaller_stopped a c.st h)

/-- What a background thread can still emit once `_stopped` is already true,
as a function of where it currently stands: at most the completion of the
sleep it is in the middle of, or the invocation it has already committed to
(it passed `check2` before the stop); never a sleep-then-invoke. -/
def stoppedTraceOK (p : Pc) (evs : List Ev) : Prop :=
  match p with
  | Pc.sleeping => evs = [] ∨ evs = [Ev.sleep]
  | Pc.invoke => evs = [] ∨ ∃ f, evs = [Ev.invoke f]
  | _ => evs = []

theorem stoppedTraceOK_nil (p : Pc) : stoppedTraceOK p [] := by
  cases p <;> simp [stoppedTraceOK]

/-- Shape of the event trace of a run that starts with `_stopped = true`. -/
theorem run_stopped_shape (acts : List Act) : ∀ c : Config,
    c.st._stopped = true → stoppedTraceOK c.pc (run c acts).2 := by
  induction acts with
  | nil => intro c _; simpa [run] using stoppedTraceOK_nil c.pc
  | cons a rest ih =>
    intro c h
    cases a with
    | call a =>
      simpa [run, stoppedTraceOK] using
        ih { c with st := applyCaller a c.st } (applyCaller_stopped a c.st h)
    | tick =>
      have hstep := loopStep_stopped c h
      rcases hpc : c.pc with _ | _ | _ | _ | _ | _ | _
      case modeCheck =>
        by_cases hm : c.st._is_single_shot = true
        · have hs : loopStep c = ({ c with pc := Pc.setStop }, none) := by
            unfold loopStep; rw [hpc]; simp [hm]
          have := ih { c with pc := Pc.setStop } h
          simp [stoppedTraceOK] at this
          simp [run, hs, stoppedTraceOK, this]
        · have hs : loopStep c = ({ c with pc := Pc.check1 }, none) := by
            unfold loopStep; rw [hpc]; simp [hm]
          have := ih { c with pc := Pc.check1 } h
          simp [stoppedTraceOK] at this
          simp [run, hs, stoppedTraceOK, this]
      case check1 =>
        have hs : loopStep c = ({ c with pc := Pc.exited }, none) := by
          unfold loopStep; rw [hpc]; simp [h]
        have := ih { c with pc := Pc.exited } h
        simp [stoppedTraceOK] at this
        simp [run, hs, stoppedTraceOK, this]
      case sleeping =>
        have hs : loopStep c = ({ c with pc := Pc.check2 }, some Ev.sleep) := by
          unfold loopStep; rw [hpc]
        have := ih { c with pc := Pc.check2 } h
        simp [stoppedTraceOK] at this
        simp [run, hs, stoppedTraceOK, this]
      case check2 =>
        have hs : loopStep c = ({ c with pc := Pc.exited }, none) := by
          unfold loopStep; rw [hpc]; simp [h]
        have := ih { c with pc := Pc.exited } h
        simp [stoppedTraceOK] at this
        simp [run, hs, stoppedTraceOK, this]
      case invoke =>
        have hs : loopStep c =
            ({ c with pc := if c.kind_single then Pc.setStop else Pc.modeCheck },
             some (Ev.invoke c.st._function)) := by
          unfold loopStep; rw [hpc]
        by_cases hk : c.kind_single = true
        · have := ih { c with pc := Pc.setStop } h
          simp [stoppedTraceOK] at this
          rw [hk] at this
          simp [run, hs, hk, stoppedTraceOK, this]
        · have hk' : c.kind_single = false := by simpa using hk
          have := ih { c with pc := Pc.modeCheck } h
          simp [stoppedTraceOK] at this
          rw [hk'] at this
          simp [run, hs, hk', stoppedTraceOK, this]
      case setStop =>
        have hs : loopStep c =
            ({ c with st := { c.st with _stopped := true }, pc := Pc.exited },
             none) := by
          unfold loopStep; rw [hpc]
        have := ih { c with st := { c.st with _stopped := true }, pc := Pc.exited }
          (by simp)
        simp [stoppedTraceOK] at this
        simp [run, hs, stoppedTraceOK, this]
      case exited =>
        have hs : loopStep c = (c, none) := by unfold loopStep; rw [hpc]
        have := ih c h
        rw [hpc] at this
        simp [stoppedTraceOK] at this
        simp [run, hs, stoppedTraceOK, this]

/-! ## Mode persistence, invocation bounds, termination -/

/-- `a` is not a write of `false` through the mutable `is_single_shot()`
accessor. -/
def notUnflip (a : Act) : Bool :=
  match a with
  | Act.call (CallerAct.setSingleShot false) => false
  | _ => true

/-- No action of the interleaving writes `false` through `is_single_shot()`. -/
def noUnflip (acts : List Act) : Bool := acts.all notUnflip

/-- `a` is not a write through the mutable `function()` accessor. -/
def notSetFunction (a : Act) : Bool :=
  match a with
  | Act.call (CallerAct.setFunction _) => false
  | _ => true

/-- No action of the interleaving writes through `function()`. -/
def noSetFunction (acts : List Act) : Bool := acts.all notSetFunction

theorem applyCaller_mode (a : CallerAct) (s : Timer)
    (hn : notUnflip (Act.call a) = true) (h : s._is_single_shot = true) :
    (applyCaller a s)._is_single_shot = true := by
  cases a with
  | stop => simpa [applyCaller, Timer.stop] using h
  | setSingleShot b =>
    cases b with
    | false => simp [notUnflip] at hn
    | true => simp [applyCaller]
  | setFunction f => simpa [applyCaller] using h

theorem run_mode_persist (acts : List Act) : ∀ c : Config,
    noUnflip acts = true → c.st._is_single_shot = true →
    (run c acts).1.st._is_single_shot = true := by
  induction acts with
  | nil => intro c _ h; simpa [run] using h
  | cons a rest ih =>
    intro c hn h
    rw [noUnflip, List.all_cons, Bool.and_eq_true] at hn
    cases a with
    | tick =>
      simp [run]
      exact ih _ hn.2 (by rw [loopStep_mode]; exact h)
    | call a =>
      simp [run]
      exact ih _ hn.2 (applyCaller_mode a c.st hn.1 h)

theorem countInvokes_nil : countInvokes [] = 0 := rfl

theorem countInvokes_sleep (t : List Ev) :
    countInvokes (Ev.sleep :: t) = countInvokes t := by
  simp [countInvokes]

theorem countInvokes_invoke (f : Nat) (t : List Ev) :
    countInvokes (Ev.invoke f :: t) = countInvokes t + 1 := by
  simp [countInvokes]

/-- How many invocations a thread whose mode reads `true` can still emit,
by program counter: only one, the one it may currently be inside a tick
for; once back at the `while` condition, none. -/
def invokeBound (p : Pc) : Nat :=
  match p with
  | Pc.check1 => 1
  | Pc.sleeping => 1
  | Pc.check2 => 1
  | Pc.invoke => 1
  | _ => 0

/-- With `_is_single_shot` true and never written back to `false`, the run
emits at most `invokeBound` of the current program counter many
invocations — in particular at most one. -/
theorem countInvokes_le_modeTrue (acts : List Act) : ∀ c : Config,
    noUnflip acts = true → c.st._is_single_shot = true →
    countInvokes (run c acts).2 ≤ invokeBound c.pc := by
  induction acts with
  | nil => intro c _ _; simp [run, countInvokes_nil]
  | cons a rest ih =>
    intro c hn hm
    rw [noUnflip, List.all_cons, Bool.and_eq_true] at hn
    cases a with
    | call a =>
      simp [run]
      exact ih { c with st := applyCaller a c.st } hn.2
        (applyCaller_mode a c.st hn.1 hm)
    | tick =>
      have hm' : (loopStep c).1.st._is_single_shot = c.st._is_single_shot :=
        loopStep_mode c
      rcases hpc : c.pc with _ | _ | _ | _ | _ | _ | _
      case modeCheck =>
        have hs : loopStep c = ({ c with pc := Pc.setStop }, none) := by
          unfold loopStep; rw [hpc]; simp [hm]
        have := ih { c with pc := Pc.setStop } hn.2 hm
        simp [invokeBound] at this
        simp [run, hs, invokeBound, this]
      case check1 =>
        by_cases hstp : c.st._stopped = true
        · have hs : loopStep c = ({ c with pc := Pc.exited }, none) := by
            unfold loopStep; rw [hpc]; simp [hstp]
          have := ih { c with pc := Pc.exited } hn.2 hm
          simp [invokeBound] at this
          simp [run, hs, invokeBound]
          omega
        · have hs : loopStep c = ({ c with pc := Pc.sleeping }, none) := by
            unfold loopStep; rw [hpc]; simp [hstp]
          have := ih { c with pc := Pc.sleeping } hn.2 hm
          simp [invokeBound] at this
          simp [run, hs, invokeBound]
          omega
      case sleeping =>
        have hs : loopStep c = ({ c with pc := Pc.check2 }, some Ev.sleep) := by
          unfold loopStep; rw [hpc]
        have := ih { c with pc := Pc.check2 } hn.2 hm
        simp [invokeBound] at this
        simp [run, hs, invokeBound, countInvokes_sleep]
        omega
      case check2 =>
        by_cases hstp : c.st._stopped = true
        · have hs : loopStep c = ({ c with pc := Pc.exited }, none) := by
            unfold loopStep; rw [hpc]; simp [hstp]
          have := ih { c with pc := Pc.exited } hn.2 hm
          simp [invokeBound] at this
          simp [run, hs, invokeBound]
          omega
        · have hs : loopStep c = ({ c with pc := Pc.invoke }, none) := by
            unfold loopStep; rw [hpc]; simp [hstp]
          have := ih { c with pc := Pc.invoke } hn.2 hm
          simp [invokeBound] at this
          simp [run, hs, invokeBound]
          omega
      case invoke =>
        have hs : loopStep c =
            ({ c with pc := if c.kind_single then Pc.setStop else Pc.modeCheck },
             some (Ev.invoke c.st._function)) := by
          unfold loopStep; rw [hpc]
        by_cases hk : c.kind_single = true
        · have := ih { c with pc := Pc.setStop } hn.2 hm
          simp [invokeBound] at this
          rw [hk] at this
          simp [run, hs, hk, invokeBound, countInvokes_invoke, this]
        · have hk' : c.kind_single = false := by simpa using hk
          have := ih { c with pc := Pc.modeCheck } hn.2 hm
          simp [invokeBound] at this
          rw [hk'] at this
          simp [run, hs, hk', invokeBound, countInvokes_invoke, this]
      case setStop =>
        have hs : loopStep c =
            ({ c with st := { c.st with _stopped := true }, pc := Pc.exited },
             none) := by
          unfold loopStep; rw [hpc]
        have := ih { c with st := { c.st with _stopped := true }, pc := Pc.exited }
          hn.2 (by simpa using hm)
        simp [invokeBound] at this
        simp [run, hs, invokeBound, this]
      case exited =>
        have hs : loopStep c = (c, none) := by unfold loopStep; rw [hpc]
        have := ih c hn.2 hm
        rw [hpc] at this
        simp [invokeBound] at this
        simp [run, hs, invokeBound, this]

/-- Ranking function: with the mode reading `true`, every thread statement
strictly decreases it until the thread has returned. -/
def rank (p : Pc) : Nat :=
  match p with
  | Pc.exited => 0
  | Pc.setStop => 1
  | Pc.modeCheck => 2
  | Pc.invoke => 3
  | Pc.check2 => 4
  | Pc.sleeping => 5
  | Pc.check1 => 6

theorem rank_eq_zero (p : Pc) (h : rank p = 0) : p = Pc.exited := by
  cases p <;> simp [rank] at h ⊢

theorem rank_le_six (p : Pc) : rank p ≤ 6 := by
  cases p <;> simp [rank]

theorem loopStep_rank (c : Config) (hm : c.st._is_single_shot = true)
    (h : c.pc ≠ Pc.exited) : rank (loopStep c).1.pc < rank c.pc := by
  rcases hpc : c.pc with _ | _ | _ | _ | _ | _ | _ <;>
    unfold loopStep <;> rw [hpc]
  case modeCheck => simp [rank, hm]
  case check1 =>
    by_cases hstp : c.st._stopped = true <;> simp [rank, hstp]
  case sleeping => simp [rank]
  case check2 =>
    by_cases hstp : c.st._stopped = true <;> simp [rank, hstp]
  case invoke =>
    by_cases hk : c.kind_single = true <;> simp [rank, hk]
  case setStop => simp [rank]
  case exited => exact absurd hpc h

theorem numTicks_nil : numTicks [] = 0 := rfl

theorem numTicks_tick (rest : List Act) :
    numTicks (Act.tick :: rest) = numTicks rest + 1 := by
  simp [numTicks]

theorem numTicks_call (a : CallerAct) (rest : List Act) :
    numTicks (Act.call a :: rest) = numTicks rest := by
  simp [numTicks]

/-- With the mode held at `true`, the thread returns within `rank` many of
its own steps, whatever the caller does in between. -/
theorem run_terminates_modeTrue (acts : List Act) : ∀ c : Config,
    noUnflip acts = true → c.st._is_single_shot = true →
    rank c.pc ≤ numTicks acts → (run c acts).1.pc = Pc.exited := by
  induction acts with
  | nil =>
    intro c _ _ hr
    rw [numTicks_nil, Nat.le_zero] at hr
    simpa [run] using rank_eq_zero c.pc hr
  | cons a rest ih =>
    intro c hn hm hr
    rw [noUnflip, List.all_cons, Bool.and_eq_true] at hn
    cases a with
    | call a =>
      rw [numTicks_call] at hr
      simp [run]
      exact ih { c with st := applyCaller a c.st } hn.2
        (applyCaller_mode a c.st hn.1 hm) hr
    | tick =>
      by_cases he : c.pc = Pc.exited
      · have hs : loopStep c = (c, none) := by unfold loopStep; rw [he]
        simp [run, hs]
        exact (run_exited rest c he).1
      · rw [numTicks_tick] at hr
        have hlt := loopStep_rank c hm he
        simp [run]
        exact ih (loopStep c).1 hn.2 (by rw [loopStep_mode]; exact hm)
          (by omega)

/-- The thread only ever reaches `exited` with `_stopped` true (it either
observed `_stopped` at a check, or executed `_stopped = true` itself) —
and nothing clears the flag afterwards. -/
theorem loopStep_exited_stopped (c : Config)
    (h : c.pc = Pc.exited → c.st._stopped = true)
    (he : (loopStep c).1.pc = Pc.exited) : (loopStep c).1.st._stopped = true := by
  rcases hpc : c.pc with _ | _ | _ | _ | _ | _ | _ <;> unfold loopStep at he ⊢ <;>
    rw [hpc] at he ⊢
  case modeCheck =>
    by_cases hm : c.st._is_single_shot = true <;> simp [hm] at he
  case check1 =>
    by_cases hstp : c.st._stopped = true <;> simp [hstp] at he ⊢
  case sleeping => simp at he
  case check2 =>
    by_cases hstp : c.st._stopped = true <;> simp [hstp] at he ⊢
  case invoke =>
    by_cases hk : c.kind_single = true <;> simp [hk] at he
  case exited => simpa using h hpc

theorem run_exited_stopped (acts : List Act) : ∀ c : Config,
    (c.pc = Pc.exited → c.st._stopped = true) →
    (run c acts).1.pc = Pc.exited → (run c acts).1.st._stopped = true := by
  induction acts with
  | nil => intro c h he; simp [run] at he ⊢; exact h he
  | cons a rest ih =>
    intro c h he
    cases a with
    | tick =>
      simp [run] at he ⊢
      exact ih (loopStep c).1 (loopStep_exited_stopped c h) he
    | call a =>
      simp [run] at he ⊢
      exact ih { c with st := applyCaller a c.st }
        (fun hp => applyCaller_stopped a c.st (h hp)) he

/-! ## Callback identity -/

theorem applyCaller_function (a : CallerAct) (s : Timer)
    (hn : notSetFunction (Act.call a) = true) :
    (applyCaller a s)._function = s._function := by
  cases a with
  | stop => simp [applyCaller, Timer.stop]
  | setSingleShot b => simp [applyCaller]
  | setFunction f => simp [notSetFunction] at hn

/-- Any event a single statement emits is either the sleep, or an
invocation of the callback tag currently in `_function`. -/
theorem loopStep_event (c : Config) (e : Ev) (he : (loopStep c).2 = some e) :
    e = Ev.sleep ∨ e = Ev.invoke c.st._function := by
  rcases hpc : c.pc with _ | _ | _ | _ | _ | _ | _ <;>
    unfold loopStep at he <;> rw [hpc] at he
  case modeCheck =>
    by_cases hm : c.st._is_single_shot = true <;> simp [hm] at he
  case check1 =>
    by_cases hstp : c.st._stopped = true <;> simp [hstp] at he
  case sleeping => simp at he; simp [he]
  case check2 =>
    by_cases hstp : c.st._stopped = true <;> simp [hstp] at he
  case invoke => simp at he; simp [he]
  case setStop => simp at he
  case exited => simp at he

/-- If the caller never writes through `function()`, the callback tag stays
what it was, and every invocation the thread emits carries exactly that
tag: `_function()` is read at invocation time. -/
theorem run_function_constant (acts : List Act) : ∀ c : Config,
    noSetFunction acts = true →
    (run c acts).1.st._function = c.st._function ∧
      ∀ g, Ev.invoke g ∈ (run c acts).2 → g = c.st._function := by
  induction acts with
  | nil => intro c _; simp [run]
  | cons a rest ih =>
    intro c hn
    rw [noSetFunction, List.all_cons, Bool.and_eq_true] at hn
    cases a with
    | call a =>
      have hf := applyCaller_function a c.st hn.1
      have := ih { c with st := applyCaller a c.st } hn.2
      simp [run, hf] at this ⊢
      exact this
    | tick =>
      have hf := loopStep_function c
      have := ih (loopStep c).1 hn.2
      rw [hf] at this
      refine ⟨by simp [run]; exact this.1, ?_⟩
      intro g hg
      simp [run] at hg
      rcases hg with hg | hg
      · rcases he : (loopStep c).2 with _ | e
        · rw [he] at hg; simp at hg
        · rw [he] at hg
          simp at hg
          rcases loopStep_event c e he with hev | hev <;> rw [hev] at hg <;>
            simp at hg
          simpa using hg.symm
      · exact this.2 g hg

/-! ## The single-shot lambda never reads the mode -/

/-- Two thread configurations agreeing on everything except the
`_is_single_shot` field. -/
def ModeAgnostic (c c' : Config) : Prop :=
  c.kind_single = c'.kind_single ∧ c.pc = c'.pc ∧
    c.st._stopped = c'.st._stopped ∧ c.st._ms_delay = c'.st._ms_delay ∧
    c.st._function = c'.st._function

theorem applyCaller_mode_oblivious (a : CallerAct) (c c' : Config)
    (h : ModeAgnostic c c') :
    ModeAgnostic { c with st := applyCaller a c.st }
      { c' with st := applyCaller a c'.st } := by
  obtain ⟨hkk, hpp, hss, hdd, hff⟩ := h
  cases a <;> simp [ModeAgnostic, applyCaller, Timer.stop, hkk, hpp, hss, hdd, hff]

/-- The single-shot lambda (`kind_single = true`, never at the `while`
condition) reads every field except `_is_single_shot`; one statement
therefore behaves identically on mode-agnostic configurations. -/
theorem loopStep_mode_oblivious (c c' : Config) (hk : c.kind_single = true)
    (hpc : c.pc ≠ Pc.modeCheck) (h : ModeAgnostic c c') :
    (loopStep c).2 = (loopStep c').2 ∧
      ModeAgnostic (loopStep c).1 (loopStep c').1 ∧
      (loopStep c).1.pc ≠ Pc.modeCheck := by
  rcases c with ⟨k, p, s1, m, d, f⟩
  rcases c' with ⟨k', p', s1', m', d', f'⟩
  obtain ⟨hkk, hpp, hss, hdd, hff⟩ := h
  simp at hkk hpp hss hdd hff hk hpc
  subst hkk hpp hss hdd hff hk
  rcases p with _ | _ | _ | _ | _ | _ | _
  case modeCheck => simp at hpc
  case check1 =>
    by_cases hstp : s1 = true <;> simp [loopStep, ModeAgnostic, hstp]
  case sleeping => simp [loopStep, ModeAgnostic]
  case check2 =>
    by_cases hstp : s1 = true <;> simp [loopStep, ModeAgnostic, hstp]
  case invoke => simp [loopStep, ModeAgnostic]
  case setStop => simp [loopStep, ModeAgnostic]
  case exited => simp [loopStep, ModeAgnostic]

/-- Whole-run version: once spawned, the single-shot lambda's behaviour
(events, program counter, `_stopped`, `_function`) is independent of
anything the `_is_single_shot` field does. -/
theorem run_mode_oblivious (acts : List Act) : ∀ c c' : Config,
    c.kind_single = true → c.pc ≠ Pc.modeCheck → ModeAgnostic c c' →
    (run c acts).2 = (run c' acts).2 ∧
      ModeAgnostic (run c acts).1 (run c' acts).1 := by
  induction acts with
  | nil => intro c c' _ _ h; simpa [run] using h
  | cons a rest ih =>
    intro c c' hk hpc h
    cases a with
    | call a =>
      simp [run]
      exact ih _ _ hk hpc (applyCaller_mode_oblivious a c c' h)
    | tick =>
      obtain ⟨hev, hma, hpc'⟩ := loopStep_mode_oblivious c c' hk hpc h
      have hk' : (loopStep c).1.kind_single = true := by
        rw [loopStep_kind]; exact hk
      have := ih (loopStep c).1 (loopStep c').1 hk' hpc' hma
      simp [run, hev, this.1, this.2]

/-- How many invocations the single-shot lambda can still emit, by program
counter: at most the single one of its body. -/
def invokeBoundSingle (p : Pc) : Nat :=
  match p with
  | Pc.modeCheck => 1
  | Pc.check1 => 1
  | Pc.sleeping => 1
  | Pc.check2 => 1
  | Pc.invoke => 1
  | _ => 0

/-- A thread running the single-shot lambda invokes the callback at most
once, whatever the caller does meanwhile. -/
theorem countInvokes_le_single (acts : List Act) : ∀ c : Config,
    c.kind_single = true →
    countInvokes (run c acts).2 ≤ invokeBoundSingle c.pc := by
  induction acts with
  | nil => intro c _; simp [run, countInvokes_nil]
  | cons a rest ih =>
    intro c hk
    cases a with
    | call a =>
      simp [run]
      exact ih { c with st := applyCaller a c.st } hk
    | tick =>
      have hk' : (loopStep c).1.kind_single = true := by
        rw [loopStep_kind]; exact hk
      rcases hpc : c.pc with _ | _ | _ | _ | _ | _ | _
      case modeCheck =>
        by_cases hm : c.st._is_single_shot = true
        · have hs : loopStep c = ({ c with pc := Pc.setStop }, none) := by
            unfold loopStep; rw [hpc]; simp [hm]
          have := ih { c with pc := Pc.setStop } hk
          simp [invokeBoundSingle] at this
          simp [run, hs, invokeBoundSingle, this]
        · have hs : loopStep c = ({ c with pc := Pc.check1 }, none) := by
            unfold loopStep; rw [hpc]; simp [hm]
          have := ih { c with pc := Pc.check1 } hk
          simp [invokeBoundSingle] at this
          simp [run, hs, invokeBoundSingle]
          omega
      case check1 =>
        by_cases hstp : c.st._stopped = true
        · have hs : loopStep c = ({ c with pc := Pc.exited }, none) := by
            unfold loopStep; rw [hpc]; simp [hstp]
          have := ih { c with pc := Pc.exited } hk
          simp [invokeBoundSingle] at this
          simp [run, hs, invokeBoundSingle]
          omega
        · have hs : loopStep c = ({ c with pc := Pc.sleeping }, none) := by
            unfold loopStep; rw [hpc]; simp [hstp]
          have := ih { c with pc := Pc.sleeping } hk
          simp [invokeBoundSingle] at this
          simp [run, hs, invokeBoundSingle]
          omega
      case sleeping =>
        have hs : loopStep c = ({ c with pc := Pc.check2 }, some Ev.sleep) := by
          unfold loopStep; rw [hpc]
        have := ih { c with pc := Pc.check2 } hk
        simp [invokeBoundSingle] at this
        simp [run, hs, invokeBoundSingle, countInvokes_sleep]
        omega
      case check2 =>
        by_cases hstp : c.st._stopped = true
        · have hs : loopStep c = ({ c with pc := Pc.exited }, none) := by
            unfold loopStep; rw [hpc]; simp [hstp]
          have := ih { c with pc := Pc.exited } hk
          simp [invokeBoundSingle] at this
          simp [run, hs, invokeBoundSingle]
          omega
        · have hs : loopStep c = ({ c with pc := Pc.invoke }, none) := by
            unfold loopStep; rw [hpc]; simp [hstp]
          have := ih { c with pc := Pc.invoke } hk
          simp [invokeBoundSingle] at this
          simp [run, hs, invokeBoundSingle]
          omega
      case invoke =>
        have hs : loopStep c =
            ({ c with pc := if c.kind_single then Pc.setStop else Pc.modeCheck },
             some (Ev.invoke c.st._function)) := by
          unfold loopStep; rw [hpc]
        have := ih { c with pc := Pc.setStop } hk
        simp [invokeBoundSingle] at this
        rw [hk] at hs this
        simp [run, hs, invokeBoundSingle, countInvokes_invoke, this]
      case setStop =>
        have hs : loopStep c =
            ({ c with st := { c.st with _stopped := true }, pc := Pc.exited },
             none) := by
          unfold loopStep; rw [hpc]
        have := ih { c with st := { c.st with _stopped := true }, pc := Pc.exited }
          hk
        simp [invokeBoundSingle] at this
        simp [run, hs, invokeBoundSingle, this]
      case exited =>
        have hs : loopStep c = (c, none) := by unfold loopStep; rw [hpc]
        have := ih c hk
        rw [hpc] at this
        simp [invokeBoundSingle] at this
        simp [run, hs, invokeBoundSingle, this]

/-! ## Bridging lemmas -/

theorem invokeBound_le_one (p : Pc) : invokeBound p ≤ 1 := by
  cases p <;> simp [invokeBound]

theorem invokeBoundSingle_le_one (p : Pc) : invokeBoundSingle p ≤ 1 := by
  cases p <;> simp [invokeBoundSingle]

theorem stoppedTraceOK_cases (p : Pc) (evs : List Ev) (h : stoppedTraceOK p evs) :
    evs = [] ∨ evs = [Ev.sleep] ∨ ∃ f, evs = [Ev.invoke f] := by
  cases p <;> simp [stoppedTraceOK] at h <;> tauto

/-- Every invocation in the trace carries the callback tag `f`. -/
def invokesAll (evs : List Ev) (f : Nat) : Bool :=
  evs.all fun e => match e with
    | Ev.invoke g => g == f
    | Ev.sleep => true

theorem invokesAll_of_forall (evs : List Ev) (f : Nat)
    (h : ∀ g, Ev.invoke g ∈ evs → g = f) : invokesAll evs f = true := by
  rw [invokesAll, List.all_eq_true]
  intro e he
  cases e with
  | sleep => rfl
  | invoke g => simpa using h g he

theorem loopStep_not_modeCheck (c : Config) (hk : c.kind_single = true)
    (h : c.pc ≠ Pc.modeCheck) : (loopStep c).1.pc ≠ Pc.modeCheck := by
  rcases hpc : c.pc with _ | _ | _ | _ | _ | _ | _ <;> unfold loopStep <;> rw [hpc]
  case modeCheck => exact absurd hpc h
  case check1 =>
    by_cases hstp : c.st._stopped = true <;> simp [hstp]
  case sleeping => simp
  case check2 =>
    by_cases hstp : c.st._stopped = true <;> simp [hstp]
  case invoke => simp [hk]
  case setStop => simp
  case exited => simp [hpc]

theorem run_not_modeCheck (acts : List Act) : ∀ c : Config,
    c.kind_single = true → c.pc ≠ Pc.modeCheck →
    (run c acts).1.pc ≠ Pc.modeCheck := by
  induction acts with
  | nil => intro c _ h; simpa [run] using h
  | cons a rest ih =>
    intro c hk h
    cases a with
    | tick =>
      simp [run]
      exact ih (loopStep c).1 (by rw [loopStep_kind]; exact hk)
        (loopStep_not_modeCheck c hk h)
    | call a =>
      simp [run]
      exact ih { c with st := applyCaller a c.st } hk h

/-! ## Claim theorems -/

/-- C1: a Timer constructed single-shot and started spawns the single-shot
lambda at its first statement; left undisturbed (pure background-thread
steps, at least the 5 statements of the lambda body), the run performs
exactly: check stopped, sleep, check stopped, invoke the callback once,
set `_stopped = true`, exit — so the event trace is exactly one sleep
followed by one invocation of the given callback, the thread has exited,
and `stopped()` is true afterwards. -/
theorem single_shot_natural_run (f d n : Nat) (h : 5 ≤ n) :
    (Timer.construct f d true).start.2 =
      some { kind_single := true, pc := Pc.check1,
             st := { _stopped := false, _is_single_shot := true,
                     _ms_delay := d, _function := f } } ∧
    run { kind_single := true, pc := Pc.check1,
          st := { _stopped := false, _is_single_shot := true,
                  _ms_delay := d, _function := f } }
        (List.replicate n Act.tick) =
      ({ kind_single := true, pc := Pc.exited,
         st := { _stopped := true, _is_single_shot := true,
                 _ms_delay := d, _function := f } },
       [Ev.sleep, Ev.invoke f]) ∧
    countInvokes [Ev.sleep, Ev.invoke f] = 1 ∧
    Timer.stopped { _stopped := true, _is_single_shot := true,
                    _ms_delay := d, _function := f } = true := by
  refine ⟨rfl, ?_, rfl, rfl⟩
  obtain ⟨k, rfl⟩ : ∃ k, n = 5 + k := ⟨n - 5, by omega⟩
  rw [List.replicate_add, run_append]
  have h5 : run { kind_single := true, pc := Pc.check1,
                  st := { _stopped := false, _is_single_shot := true,
                          _ms_delay := d, _function := f } }
      (List.replicate 5 Act.tick) =
      ({ kind_single := true, pc := Pc.exited,
         st := { _stopped := true, _is_single_shot := true,
                 _ms_delay := d, _function := f } },
       [Ev.sleep, Ev.invoke f]) := rfl
  rw [h5, run_exited_ticks k _ rfl]
  rfl

/-- Witness for C1 at `f = 1`, `d = 50`, `n = 5`. -/
theorem single_shot_natural_run_witness :
    (Timer.construct 1 50 true).start.2 =
      some { kind_single := true, pc := Pc.check1,
             st := { _stopped := false, _is_single_shot := true,
                     _ms_delay := 50, _function := 1 } } ∧
    run { kind_single := true, pc := Pc.check1,
          st := { _stopped := false, _is_single_shot := true,
                  _ms_delay := 50, _function := 1 } }
        (List.replicate 5 Act.tick) =
      ({ kind_single := true, pc := Pc.exited,
         st := { _stopped := true, _is_single_shot := true,
                 _ms_delay := 50, _function := 1 } },
       [Ev.sleep, Ev.invoke 1]) ∧
    countInvokes [Ev.sleep, Ev.invoke 1] = 1 ∧
    Timer.stopped { _stopped := true, _is_single_shot := true,
                    _ms_delay := 50, _function := 1 } = true :=
  single_shot_natural_run 1 50 5 (by decide)

/-- C3: `start()` is idempotent activation: after any `start` the Timer is
running; starting a running Timer is a no-op returning the same Timer and
spawning nothing; starting a stopped Timer clears `_stopped`, touches no
other field, and spawns exactly the one thread `on_run` builds; a second
`start` right after a first spawns no second thread. -/
theorem start_idempotent_activation (s : Timer) :
    (s.start.1).running = true ∧
    (s.stopped = false → s.start = (s, none)) ∧
    (s.stopped = true → s.start.1 = { s with _stopped := false } ∧
      s.start.2 = some (Timer.on_run { s with _stopped := false })) ∧
    (s.start.1).start = (s.start.1, none) ∧
    s.start.1._is_single_shot = s._is_single_shot ∧
    s.start.1._ms_delay = s._ms_delay ∧
    s.start.1._function = s._function := by
  by_cases h : s._stopped = true <;>
    simp [Timer.start, Timer.running, Timer.stopped, h]

/-- Witness for C3 on a stopped repeating Timer. -/
theorem start_idempotent_activation_witness :
    (Timer.mk true false 5 7).start.1.running = true ∧
    ((Timer.mk true false 5 7).stopped = false →
      (Timer.mk true false 5 7).start = (Timer.mk true false 5 7, none)) ∧
    ((Timer.mk true false 5 7).stopped = true →
      (Timer.mk true false 5 7).start.1 =
        { Timer.mk true false 5 7 with _stopped := false } ∧
      (Timer.mk true false 5 7).start.2 =
        some (Timer.on_run { Timer.mk true false 5 7 with _stopped := false })) ∧
    ((Timer.mk true false 5 7).start.1).start =
      ((Timer.mk true false 5 7).start.1, none) ∧
    (Timer.mk true false 5 7).start.1._is_single_shot =
      (Timer.mk true false 5 7)._is_single_shot ∧
    (Timer.mk true false 5 7).start.1._ms_delay =
      (Timer.mk true false 5 7)._ms_delay ∧
    (Timer.mk true false 5 7).start.1._function =
      (Timer.mk true false 5 7)._function :=
  start_idempotent_activation (Timer.mk true false 5 7)

/-- C4: `stop()` unconditionally sets `_stopped` and nothing else: after it
`stopped()` is true, mode, delay and callback are untouched, and on an
already-stopped Timer it is the identity. It is a total function — it
cannot fail. -/
theorem stop_unconditional (s : Timer) :
    (s.stop).stopped = true ∧
    s.stop = { s with _stopped := true } ∧
    s.stop._is_single_shot = s._is_single_shot ∧
    s.stop._ms_delay = s._ms_delay ∧
    s.stop._function = s._function ∧
    (s.stopped = true → s.stop = s) := by
  refine ⟨rfl, rfl, rfl, rfl, rfl, ?_⟩
  intro h
  cases s
  simp_all [Timer.stop, Timer.stopped]

/-- Witness for C4 on a never-started Timer. -/
theorem stop_unconditional_witness :
    ((Timer.mk true true 9 3).stop).stopped = true ∧
    (Timer.mk true true 9 3).stop = { Timer.mk true true 9 3 with _stopped := true } ∧
    (Timer.mk true true 9 3).stop._is_single_shot =
      (Timer.mk true true 9 3)._is_single_shot ∧
    (Timer.mk true true 9 3).stop._ms_delay = (Timer.mk true true 9 3)._ms_delay ∧
    (Timer.mk true true 9 3).stop._function = (Timer.mk true true 9 3)._function ∧
    ((Timer.mk true true 9 3).stopped = true →
      (Timer.mk true true 9 3).stop = Timer.mk true true 9 3) :=
  stop_unconditional (Timer.mk true true 9 3)

/-- C5: construction yields a stopped (not running) Timer holding exactly
the given callback, delay and mode; `single_shot` defaults to `true`. In
the model `construct` returns only the record — no thread configuration is
produced, i.e. no thread is spawned. -/
theorem construct_initial_state (f d : Nat) (b : Bool) :
    (Timer.construct f d b).stopped = true ∧
    (Timer.construct f d b).running = false ∧
    (Timer.construct f d b).is_single_shot = b ∧
    (Timer.construct f d b)._ms_delay = d ∧
    (Timer.construct f d b).function = f ∧
    Timer.constructDefault f d = Timer.construct f d true :=
  ⟨rfl, rfl, rfl, rfl, rfl, rfl⟩

/-- Witness for C5 at `f = 4`, `d = 100`, `b = false`. -/
theorem construct_initial_state_witness :
    (Timer.construct 4 100 false).stopped = true ∧
    (Timer.construct 4 100 false).running = false ∧
    (Timer.construct 4 100 false).is_single_shot = false ∧
    (Timer.construct 4 100 false)._ms_delay = 100 ∧
    (Timer.construct 4 100 false).function = 4 ∧
    Timer.constructDefault 4 100 = Timer.construct 4 100 true :=
  construct_initial_state 4 100 false

/-- C9: for every Timer state, `running()` is the Boolean negation of
`stopped()`; in particular `running()` is true exactly when `stopped()` is
false. Both are pure accessors of the record, modifying nothing. -/
theorem running_iff_not_stopped (s : Timer) :
    s.running = !s.stopped ∧ (s.running = true ↔ s.stopped = false) := by
  refine ⟨rfl, ?_⟩
  simp [Timer.running]

/-- Witness for C9 on a running Timer. -/
theorem running_iff_not_stopped_witness :
    (Timer.mk false true 2 8).running = !(Timer.mk false true 2 8).stopped ∧
    ((Timer.mk false true 2 8).running = true ↔
      (Timer.mk false true 2 8).stopped = false) :=
  running_iff_not_stopped (Timer.mk false true 2 8)

/-- C7: whatever ran before, once the caller's `stop()` has taken effect,
the remaining trace of the background thread is at most: the completion of
the sleep it was in (with no invocation after it), or the single invocation
it had already passed `check2` for — never a sleep followed by an
invocation, and never more than one invocation. The stopped flag is
re-checked right after each sleep, so a stop issued during a sleep
prevents the invocation that would otherwise follow that sleep. -/
theorem stop_bounds_invocations (c : Config) (pre post : List Act) :
    ((run (run c (pre ++ [Act.call CallerAct.stop])).1 post).2 = [] ∨
      (run (run c (pre ++ [Act.call CallerAct.stop])).1 post).2 = [Ev.sleep] ∨
      ∃ f, (run (run c (pre ++ [Act.call CallerAct.stop])).1 post).2 =
        [Ev.invoke f]) ∧
    countInvokes (run (run c (pre ++ [Act.call CallerAct.stop])).1 post).2 ≤ 1 := by
  have hstop : (run c (pre ++ [Act.call CallerAct.stop])).1.st._stopped = true := by
    rw [run_append]
    simp [run, applyCaller, Timer.stop]
  have hsh := run_stopped_shape post _ hstop
  have hc := stoppedTraceOK_cases _ _ hsh
  refine ⟨hc, ?_⟩
  rcases hc with h | h | ⟨f, h⟩ <;> rw [h] <;> simp [countInvokes]

/-- Witness for C7: repeating loop mid-sleep, `stop()` issued during the
sleep, thread then allowed to finish — only the sleep completes, no
invocation follows it. -/
theorem stop_bounds_invocations_witness :
    ((run (run { kind_single := false, pc := Pc.modeCheck,
                 st := { _stopped := false, _is_single_shot := false,
                         _ms_delay := 50, _function := 1 } }
             ([Act.tick, Act.tick] ++ [Act.call CallerAct.stop])).1
          [Act.tick, Act.tick, Act.tick]).2 = [] ∨
      (run (run { kind_single := false, pc := Pc.modeCheck,
                  st := { _stopped := false, _is_single_shot := false,
                          _ms_delay := 50, _function := 1 } }
              ([Act.tick, Act.tick] ++ [Act.call CallerAct.stop])).1
           [Act.tick, Act.tick, Act.tick]).2 = [Ev.sleep] ∨
      ∃ f, (run (run { kind_single := false, pc := Pc.modeCheck,
                       st := { _stopped := false, _is_single_shot := false,
                               _ms_delay := 50, _function := 1 } }
                   ([Act.tick, Act.tick] ++ [Act.call CallerAct.stop])).1
                [Act.tick, Act.tick, Act.tick]).2 = [Ev.invoke f]) ∧
    countInvokes
        (run (run { kind_single := false, pc := Pc.modeCheck,
                    st := { _stopped := false, _is_single_shot := false,
                            _ms_delay := 50, _function := 1 } }
                ([Act.tick, Act.tick] ++ [Act.call CallerAct.stop])).1
             [Act.tick, Act.tick, Act.tick]).2 ≤ 1 :=
  stop_bounds_invocations
    { kind_single := false, pc := Pc.modeCheck,
      st := { _stopped := false, _is_single_shot := false,
              _ms_delay := 50, _function := 1 } }
    [Act.tick, Act.tick] [Act.tick, Act.tick, Act.tick]

/-- C6 (counterexample): the claim says a replacement through `function()`
while the repeating Timer runs takes effect on the next tick, not on the
tick already in flight. But `_function()` is read at invocation time: here
the replacement `1 ↦ 2` lands during the sleep of the first tick (after
its sleep began, before its post-sleep check), and that very tick's
invocation already calls callback `2` — the in-flight tick does observe
the replacement, contradicting the claim. -/
theorem callback_replacement_in_flight_counterexample :
    (Timer.construct 1 100 false).start.2 =
      some { kind_single := false, pc := Pc.modeCheck,
             st := { _stopped := false, _is_single_shot := false,
                     _ms_delay := 100, _function := 1 } } ∧
    (run { kind_single := false, pc := Pc.modeCheck,
           st := { _stopped := false, _is_single_shot := false,
                   _ms_delay := 100, _function := 1 } }
         [Act.tick, Act.tick, Act.call (CallerAct.setFunction 2),
          Act.tick, Act.tick, Act.tick]).2 = [Ev.sleep, Ev.invoke 2] ∧
    [Ev.sleep, Ev.invoke 2] ≠ ([Ev.sleep, Ev.invoke 1] : List Ev) := by
  exact ⟨rfl, by decide, by decide⟩

/-- C6 (amended): the execution loop reads the callback through
`function()` at invocation time, so a replacement is observed by every
invocation that begins after it — including the invocation of a tick
already in flight whose sleep has completed; in particular a replacement
committed between ticks is observed from the following tick on. Formally:
after the caller's write of `f_new`, with no later write, every invocation
the thread emits carries `f_new`, and the stored callback stays `f_new`. -/
theorem callback_read_at_invocation (c : Config) (f_new : Nat)
    (post : List Act) (hp : noSetFunction post = true) :
    invokesAll
        (run { c with st := applyCaller (CallerAct.setFunction f_new) c.st }
          post).2 f_new = true ∧
    (run { c with st := applyCaller (CallerAct.setFunction f_new) c.st }
        post).1.st._function = f_new := by
  have h := run_function_constant post
    { c with st := applyCaller (CallerAct.setFunction f_new) c.st } hp
  simp [applyCaller] at h
  exact ⟨invokesAll_of_forall _ _ (fun g hg => h.2 g hg), h.1⟩

/-- Witness for C6 (amended): the replacement lands mid-tick (the thread
is past its sleep, at `check2`); the in-flight tick's invocation already
carries the new callback. -/
theorem callback_read_at_invocation_witness :
    invokesAll
        (run { ({ kind_single := false, pc := Pc.check2,
                  st := { _stopped := false, _is_single_shot := false,
                          _ms_delay := 100, _function := 1 } } : Config) with
               st := applyCaller (CallerAct.setFunction 2)
                 ({ _stopped := false, _is_single_shot := false,
                    _ms_delay := 100, _function := 1 } : Timer) }
          [Act.tick, Act.tick]).2 2 = true ∧
    (run { ({ kind_single := false, pc := Pc.check2,
              st := { _stopped := false, _is_single_shot := false,
                      _ms_delay := 100, _function := 1 } } : Config) with
           st := applyCaller (CallerAct.setFunction 2)
             ({ _stopped := false, _is_single_shot := false,
                _ms_delay := 100, _function := 1 } : Timer) }
        [Act.tick, Act.tick]).1.st._function = 2 :=
  callback_read_at_invocation
    { kind_single := false, pc := Pc.check2,
      st := { _stopped := false, _is_single_shot := false,
              _ms_delay := 100, _function := 1 } }
    2 [Act.tick, Act.tick] (by decide)

/-- C2: a repeating Timer that was started spawned the repeating lambda
(`kind_single = false`). After the caller flips the mode to single-shot
(and never flips it back), the loop invokes the callback at most one more
time; whenever the thread exits it leaves `stopped()` true; and within at
most 6 further statements of its own (one residual tick plus the
`while`-exit epilogue) it has exited with `stopped()` true, whatever else
the caller does meanwhile. -/
theorem repeating_flip_to_single_shot (s : Timer) (c0 : Config)
    (pre post : List Act) (hs : s.start.2 = some c0)
    (hrep : s._is_single_shot = false) (hp : noUnflip post = true) :
    c0.kind_single = false ∧
    countInvokes
        (run (run c0 (pre ++ [Act.call (CallerAct.setSingleShot true)])).1
          post).2 ≤ 1 ∧
    ((run (run c0 (pre ++ [Act.call (CallerAct.setSingleShot true)])).1
        post).1.pc = Pc.exited →
      (run (run c0 (pre ++ [Act.call (CallerAct.setSingleShot true)])).1
          post).1.st.stopped = true) ∧
    (6 ≤ numTicks post →
      (run (run c0 (pre ++ [Act.call (CallerAct.setSingleShot true)])).1
          post).1.pc = Pc.exited ∧
      (run (run c0 (pre ++ [Act.call (CallerAct.setSingleShot true)])).1
          post).1.st.stopped = true) := by
  have hst : s._stopped = true := by
    cases hb : s._stopped with
    | false => simp [Timer.start, hb] at hs
    | true => rfl
  have hc0 : c0 = { kind_single := false, pc := Pc.modeCheck,
                    st := { _stopped := false, _is_single_shot := false,
                            _ms_delay := s._ms_delay,
                            _function := s._function } } := by
    simp [Timer.start, hst, Timer.on_run, hrep] at hs
    exact hs.symm
  set c1 := (run c0 (pre ++ [Act.call (CallerAct.setSingleShot true)])).1 with hc1
  have hmode : c1.st._is_single_shot = true := by
    rw [hc1, run_append]
    simp [run, applyCaller]
  have hinv1 : c1.pc = Pc.exited → c1.st._stopped = true := by
    have := run_exited_stopped (pre ++ [Act.call (CallerAct.setSingleShot true)])
      c0 (by rw [hc0]; simp)
    rw [← hc1] at this
    exact this
  refine ⟨by rw [hc0], ?_, ?_, ?_⟩
  · exact le_trans (countInvokes_le_modeTrue post c1 hp hmode)
      (invokeBound_le_one c1.pc)
  · intro he
    have := run_exited_stopped post c1 hinv1 he
    simpa [Timer.stopped] using this
  · intro h6
    have hex := run_terminates_modeTrue post c1 hp hmode
      (le_trans (rank_le_six c1.pc) h6)
    refine ⟨hex, ?_⟩
    have := run_exited_stopped post c1 hinv1 hex
    simpa [Timer.stopped] using this

/-- Witness for C2: repeating Timer (delay 10, callback 1), flipped to
single-shot right after spawn, then 6 background-thread steps. -/
theorem repeating_flip_to_single_shot_witness :
    ({ kind_single := false, pc := Pc.modeCheck,
       st := { _stopped := false, _is_single_shot := false,
               _ms_delay := 10, _function := 1 } } : Config).kind_single = false ∧
    countInvokes
        (run (run { kind_single := false, pc := Pc.modeCheck,
                    st := { _stopped := false, _is_single_shot := false,
                            _ms_delay := 10, _function := 1 } }
                ([] ++ [Act.call (CallerAct.setSingleShot true)])).1
          (List.replicate 6 Act.tick)).2 ≤ 1 ∧
    ((run (run { kind_single := false, pc := Pc.modeCheck,
                 st := { _stopped := false, _is_single_shot := false,
                         _ms_delay := 10, _function := 1 } }
             ([] ++ [Act.call (CallerAct.setSingleShot true)])).1
        (List.replicate 6 Act.tick)).1.pc = Pc.exited →
      (run (run { kind_single := false, pc := Pc.modeCheck,
                  st := { _stopped := false, _is_single_shot := false,
                          _ms_delay := 10, _function := 1 } }
              ([] ++ [Act.call (CallerAct.setSingleShot true)])).1
          (List.replicate 6 Act.tick)).1.st.stopped = true) ∧
    (6 ≤ numTicks (List.replicate 6 Act.tick) →
      (run (run { kind_single := false, pc := Pc.modeCheck,
                  st := { _stopped := false, _is_single_shot := false,
                          _ms_delay := 10, _function := 1 } }
              ([] ++ [Act.call (CallerAct.setSingleShot true)])).1
          (List.replicate 6 Act.tick)).1.pc = Pc.exited ∧
      (run (run { kind_single := false, pc := Pc.modeCheck,
                  st := { _stopped := false, _is_single_shot := false,
                          _ms_delay := 10, _function := 1 } }
              ([] ++ [Act.call (CallerAct.setSingleShot true)])).1
          (List.replicate 6 Act.tick)).1.st.stopped = true) :=
  repeating_flip_to_single_shot (Timer.construct 1 10 false)
    { kind_single := false, pc := Pc.modeCheck,
      st := { _stopped := false, _is_single_shot := false,
              _ms_delay := 10, _function := 1 } }
    [] (List.replicate 6 Act.tick) (by decide) (by decide) (by decide)

/-- C10: a Timer started in single-shot mode spawned the single-shot
lambda (`kind_single = true`, entry at its first `_stopped` check), whose
body never reads `_is_single_shot`. A caller write through the mutable
`is_single_shot()` accessor — at any point, to any value — changes nothing
the loop does: the event trace, the final program counter and the final
`stopped()` are those of the same interleaving without the write. The
spawned loop still invokes the callback at most once, and whenever it has
exited, `stopped()` is true. -/
theorem single_shot_mode_mutation_no_effect (s : Timer) (c0 : Config)
    (pre post acts : List Act) (b : Bool)
    (hs : s.start.2 = some c0) (hm : s._is_single_shot = true) :
    c0.kind_single = true ∧ c0.pc = Pc.check1 ∧
    (run c0 (pre ++ [Act.call (CallerAct.setSingleShot b)] ++ post)).2 =
      (run c0 (pre ++ post)).2 ∧
    (run c0 (pre ++ [Act.call (CallerAct.setSingleShot b)] ++ post)).1.pc =
      (run c0 (pre ++ post)).1.pc ∧
    (run c0 (pre ++ [Act.call (CallerAct.setSingleShot b)] ++ post)).1.st.stopped =
      (run c0 (pre ++ post)).1.st.stopped ∧
    countInvokes (run c0 acts).2 ≤ 1 ∧
    ((run c0 acts).1.pc = Pc.exited → (run c0 acts).1.st.stopped = true) := by
  have hst : s._stopped = true := by
    cases hb : s._stopped with
    | false => simp [Timer.start, hb] at hs
    | true => rfl
  have hc0 : c0 = { kind_single := true, pc := Pc.check1,
                    st := { _stopped := false, _is_single_shot := true,
                            _ms_delay := s._ms_delay,
                            _function := s._function } } := by
    simp [Timer.start, hst, Timer.on_run, hm] at hs
    exact hs.symm
  have hk0 : c0.kind_single = true := by rw [hc0]
  have hpc0 : c0.pc = Pc.check1 := by rw [hc0]
  have hpc0' : c0.pc ≠ Pc.modeCheck := by rw [hpc0]; simp
  have hx1k : (run c0 pre).1.kind_single = true := by rw [run_kind]; exact hk0
  have hx1pc : (run c0 pre).1.pc ≠ Pc.modeCheck := run_not_modeCheck pre c0 hk0 hpc0'
  have hMA : ModeAgnostic
      { (run c0 pre).1 with
        st := applyCaller (CallerAct.setSingleShot b) (run c0 pre).1.st }
      (run c0 pre).1 := by
    simp [ModeAgnostic, applyCaller]
  have hobl := run_mode_oblivious post _ _ (by simpa using hx1k)
    (by simpa using hx1pc) hMA
  have e1 : (run c0 (pre ++ [Act.call (CallerAct.setSingleShot b)])).1 =
      { (run c0 pre).1 with
        st := applyCaller (CallerAct.setSingleShot b) (run c0 pre).1.st } := by
    rw [run_append]
    simp [run]
  have e2 : (run c0 (pre ++ [Act.call (CallerAct.setSingleShot b)])).2 =
      (run c0 pre).2 := by
    rw [run_append]
    simp [run]
  have eL := run_append (pre ++ [Act.call (CallerAct.setSingleShot b)]) post c0
  have eR := run_append pre post c0
  refine ⟨hk0, hpc0, ?_, ?_, ?_, ?_, ?_⟩
  · rw [eL, eR, e1, e2]
    simp [hobl.1]
  · rw [eL, eR, e1]
    simp [hobl.2.2.1]
  · rw [eL, eR, e1]
    simp [Timer.stopped, hobl.2.2.2.1]
  · have := countInvokes_le_single acts c0 hk0
    rw [hpc0] at this
    simpa [invokeBoundSingle] using this
  · intro he
    have := run_exited_stopped acts c0 (by rw [hc0]; simp) he
    simpa [Timer.stopped] using this

/-- Witness for C10: single-shot Timer (delay 50, callback 1); the mode is
flipped to repeating one step after spawn; with and without the flip the
loop behaves identically, and over 9 undisturbed steps it fires once and
stops. -/
theorem single_shot_mode_mutation_no_effect_witness :
    ({ kind_single := true, pc := Pc.check1,
       st := { _stopped := false, _is_single_shot := true,
               _ms_delay := 50, _function := 1 } } : Config).kind_single = true ∧
    ({ kind_single := true, pc := Pc.check1,
       st := { _stopped := false, _is_single_shot := true,
               _ms_delay := 50, _function := 1 } } : Config).pc = Pc.check1 ∧
    (run { kind_single := true, pc := Pc.check1,
           st := { _stopped := false, _is_single_shot := true,
                   _ms_delay := 50, _function := 1 } }
        ([Act.tick] ++ [Act.call (CallerAct.setSingleShot false)] ++
          [Act.tick])).2 =
      (run { kind_single := true, pc := Pc.check1,
             st := { _stopped := false, _is_single_shot := true,
                     _ms_delay := 50, _function := 1 } }
          ([Act.tick] ++ [Act.tick])).2 ∧
    (run { kind_single := true, pc := Pc.check1,
           st := { _stopped := false, _is_single_shot := true,
                   _ms_delay := 50, _function := 1 } }
        ([Act.tick] ++ [Act.call (CallerAct.setSingleShot false)] ++
          [Act.tick])).1.pc =
      (run { kind_single := true, pc := Pc.check1,
             st := { _stopped := false, _is_single_shot := true,
                     _ms_delay := 50, _function := 1 } }
          ([Act.tick] ++ [Act.tick])).1.pc ∧
    (run { kind_single := true, pc := Pc.check1,
           st := { _stopped := false, _is_single_shot := true,
                   _ms_delay := 50, _function := 1 } }
        ([Act.tick] ++ [Act.call (CallerAct.setSingleShot false)] ++
          [Act.tick])).1.st.stopped =
      (run { kind_single := true, pc := Pc.check1,
             st := { _stopped := false, _is_single_shot := true,
                     _ms_delay := 50, _function := 1 } }
          ([Act.tick] ++ [Act.tick])).1.st.stopped ∧
    countInvokes
        (run { kind_single := true, pc := Pc.check1,
               st := { _stopped := false, _is_single_shot := true,
                       _ms_delay := 50, _function := 1 } }
          (List.replicate 9 Act.tick)).2 ≤ 1 ∧
    ((run { kind_single := true, pc := Pc.check1,
            st := { _stopped := false, _is_single_shot := true,
                    _ms_delay := 50, _function := 1 } }
        (List.replicate 9 Act.tick)).1.pc = Pc.exited →
      (run { kind_single := true, pc := Pc.check1,
             st := { _stopped := false, _is_single_shot := true,
                     _ms_delay := 50, _function := 1 } }
          (List.replicate 9 Act.tick)).1.st.stopped = true) :=
  single_shot_mode_mutation_no_effect (Timer.construct 1 50 true)
    { kind_single := true, pc := Pc.check1,
      st := { _stopped := false, _is_single_shot := true,
              _ms_delay := 50, _function := 1 } }
    [Act.tick] [Act.tick] (List.replicate 9 Act.tick) false
    (by decide) (by decide)
